import Mathlib

/-!
# Verification of the ytermusic download coordinator and playback queue

A shallow embedding of the download subsystem (`src/systems/download.rs`),
the startup cache cleanup (`src/main.rs`, `clean`) and the navigation
semantics of the player, together with proofs and refutations of the
specified properties.

Conventions of the embedding:
* A track (`ytpapi::Video`) is a record of its identity and display fields;
  the defining crate is external, the fields are the ones `src/` reads
  (`video_id`, `title`, `author`).
* The filesystem is a finite association of paths to contents; paths are
  component lists relative to `CACHE_DIR`, mirroring Rust `PathBuf`
  semantics (in particular `Path::ends_with` compares whole components).
* The shared mutable statics of `download.rs` (`DOWNLOAD_QUEUE`,
  `IN_DOWNLOAD`, `HANDLES`, `DOWNLOAD_MORE`) together with the filesystem,
  the command channel and the database are one state record `Sys`; each
  lock-guarded critical section of the source — the five sections of
  `clean`/`downloader` included — is one atomic step of a labelled
  transition relation `Step`, so sections of different threads interleave
  freely.
* Task abort follows tokio: `JoinHandle::abort` cancels a task only at an
  await point. A worker parked at the loop-head `sleep` or suspended
  inside `handle_download` when aborted never runs again; a worker aborted
  anywhere on a synchronous stretch keeps running until its next await, so
  it can still push to `IN_DOWNLOAD` or execute a commit/discard arm after
  a reset.
-/

/-- `ytpapi::Video` as used by `src/`: the track value carried through the
queue, the in-flight list, the sidecar and the command bus. -/
structure Video where
  video_id : String
  title : String
  author : String
deriving DecidableEq

/-- The `SoundAction` enum of `src/main.rs` (commands to the player). -/
inductive SoundAction where
  | Cleanup
  | PlayPause
  | ForcePause
  | ForcePlay
  | RestartPlayer
  | Plus
  | Minus
  | Previous (n : Nat)
  | Forward
  | Backward
  | Next (n : Nat)
  | PlayVideo (v : Video)
  | PlayVideoUnary (v : Video)
deriving DecidableEq

/-- A filesystem path as its list of components, relative to `CACHE_DIR`
(Rust `Path` semantics are component-wise). -/
abbrev FsPath := List String

/-- The cache filesystem: an association of paths to file contents, newest
write first. -/
abbrev FS := List (FsPath × String)

/-- `path.exists()`. -/
def fsExists (p : FsPath) (fs : FS) : Bool :=
  fs.any (fun e => e.1 == p)

/-- `std::fs::read_to_string` (the newest write wins). -/
def fsRead (p : FsPath) (fs : FS) : Option String :=
  (fs.find? (fun e => e.1 == p)).map (·.2)

/-- `std::fs::remove_file` (removing an absent file is a no-op here; the
source only removes after an `exists()` check). -/
def fsRemoveFile (p : FsPath) (fs : FS) : FS :=
  fs.filter (fun e => !(e.1 == p))

/-- `std::fs::write`: create or truncate-and-overwrite. -/
def fsWrite (p : FsPath) (c : String) (fs : FS) : FS :=
  (p, c) :: fsRemoveFile p fs

/-- `CACHE_DIR.join(format!("downloads/{}.json", video_id))`. -/
def downloadPathJson (videoId : String) : FsPath :=
  ["downloads", videoId ++ ".json"]

/-- `CACHE_DIR.join(format!("downloads/{}.mp4", video_id))`. -/
def downloadPathMp4 (videoId : String) : FsPath :=
  ["downloads", videoId ++ ".mp4"]

/-- Modelled from the spec: "Sidecar content is a serialized TrackRef". The
serializer (`serde_json::to_string` on `ytpapi::Video`) lives outside this
repository; it is modelled as a concrete injective encoding of the three
fields. -/
def serializeVideo (v : Video) : String :=
  v.video_id ++ "|" ++ v.title ++ "|" ++ v.author

/-- Stand-in for the downloaded media bytes (their value is never read). -/
def mediaBlob : String := "<media>"

/-- The control position of one worker task inside the loop body of
`start_task`. Two positions are await points, where a tokio task can be
suspended and where `JoinHandle::abort` takes effect: `idle` (parked at
the loop-head `sleep`, or not yet first polled) and `inflight` (suspended
inside `handle_download`'s awaits). All other positions lie on synchronous
stretches, which an aborted task still runs to their end: `running` (woken
up, executing the stretch up to and past `take()`), `popped` (holding a
popped track, before the sidecar check), `checked` (past the sidecar and
partial-file checks, about to push to `IN_DOWNLOAD`), `resolvedOk` /
`resolvedErr` (`handle_download` returned and the task is executing the
commit / discard arm). -/
inductive WPc where
  | idle
  | running
  | popped (v : Video)
  | checked (v : Video)
  | inflight (v : Video)
  | resolvedOk (v : Video)
  | resolvedErr (v : Video)
deriving DecidableEq

/-- Whether a control position is an await point: a worker aborted while
parked there is cancelled without ever running again. -/
def isParked : WPc → Bool
  | .idle => true
  | .inflight _ => true
  | _ => false

/-- One spawned worker task: its control position and whether its
`JoinHandle` has been aborted. -/
structure Worker where
  pc : WPc
  aborted : Bool
deriving DecidableEq

/-- The shared state of the download subsystem: the statics of
`download.rs`, the cache filesystem, the command channel (as the list of
actions sent so far), the log and the database. -/
structure Sys where
  /-- `DOWNLOAD_QUEUE`, front of the `VecDeque` at the head. -/
  queue : List Video
  /-- `IN_DOWNLOAD`. -/
  inDownload : List Video
  /-- `HANDLES`, every worker task ever spawned (aborted ones keep their
  slot so that later steps can be predicated on their status). -/
  workers : List Worker
  /-- `DOWNLOAD_MORE`. -/
  downloadMore : Bool
  /-- The cache directory. -/
  fs : FS
  /-- Actions sent on the `SoundAction` channel, in send order. -/
  sent : List SoundAction
  /-- Lines written through `systems::logger::log_` by this subsystem. -/
  log : List String
  /-- `crate::append` targets (the local database). -/
  db : List Video
deriving DecidableEq

/-- `DOWNLOADER_COUNT` of `download.rs`. -/
def DOWNLOADER_COUNT : Nat := 4

/-- A freshly spawned worker: at the loop head, not aborted. -/
def freshWorker : Worker := ⟨.idle, false⟩

/-- The state right after startup (`main` calls `downloader`, which spawns
`DOWNLOADER_COUNT` workers; every static starts empty). -/
def initSys : Sys :=
  { queue := [], inDownload := [], workers := List.replicate DOWNLOADER_COUNT freshWorker,
    downloadMore := true, fs := [], sent := [], log := [], db := [] }

/-- `IN_DOWNLOAD.lock().unwrap().retain(|x| x.video_id != id.video_id)`. -/
def retainNot (videoId : String) (l : List Video) : List Video :=
  l.filter (fun x => !(x.video_id == videoId))

/-- `download::take`: pop the front of `DOWNLOAD_QUEUE` under its lock. -/
def take (s : Sys) : Option Video × Sys :=
  match s.queue with
  | [] => (none, s)
  | v :: rest => (some v, { s with queue := rest })

/-- `download::add`: fast path when the sidecar exists, otherwise push the
track onto the back of the queue. -/
def add (video : Video) (s : Sys) : Sys :=
  if fsExists (downloadPathJson video.video_id) s.fs then
    { s with sent := s.sent ++ [SoundAction.PlayVideo video] }
  else
    { s with queue := s.queue ++ [video] }

/-- First critical section of `download::clean`:
`DOWNLOAD_QUEUE.lock().unwrap().clear()`. -/
def clearQueueSec (s : Sys) : Sys :=
  { s with queue := [] }

/-- Second critical section of `download::clean` (under the `HANDLES`
lock): abort every handle and clear the list. Aborted workers keep their
slot in the model, flagged `aborted`, so that later steps can still refer
to them; abort of an already-aborted handle is a no-op. -/
def abortHandlesSec (s : Sys) : Sys :=
  { s with workers := s.workers.map fun w => { w with aborted := true } }

/-- Third critical section of `download::clean`:
`IN_DOWNLOAD.lock().unwrap().clear()`. -/
def clearInflightSec (s : Sys) : Sys :=
  { s with inDownload := [] }

/-- `DOWNLOAD_MORE.store(true)` in `download::clean`. -/
def enableDownloadsSec (s : Sys) : Sys :=
  { s with downloadMore := true }

/-- One `start_task` call: spawn a fresh worker and push its handle (one
`HANDLES` lock acquisition). -/
def startTaskSec (s : Sys) : Sys :=
  { s with workers := s.workers ++ [freshWorker] }

/-- `download::downloader`: `DOWNLOADER_COUNT` consecutive `start_task`
calls. -/
def downloader (s : Sys) : Sys :=
  { s with workers := s.workers ++ List.replicate DOWNLOADER_COUNT freshWorker }

/-- The state transformer of `download::clean` when no other thread
interleaves between its critical sections: clear the queue, abort every
handle, clear `IN_DOWNLOAD`, re-enable downloads, spawn a fresh pool. The
transition relation below contains the five sections as separate steps,
so executions where a still-running worker interleaves inside the reset
are expressible as well. -/
def cleanDownload (s : Sys) : Sys :=
  downloader (enableDownloadsSec (clearInflightSec (abortHandlesSec (clearQueueSec s))))

/-- Per-iteration summary of the `take()` critical section, used by
`workerIter` for the sequential (functional) claims: worker `i` pops `v`
from a non-empty queue and holds it locally. (The interleaved transition
relation further below refines these summaries with the worker's abort
flag and the await structure.) -/
def popStep (i : Nat) (v : Video) (rest : List Video) (s : Sys) : Sys :=
  { s with queue := rest, workers := s.workers.set i ⟨.popped v, false⟩ }

/-- Per-iteration summary: the sidecar already exists when worker `i`
examines its popped track — send `PlayVideo` and end the iteration back at
the loop head (recorded as `idle` in this sequential summary). -/
def cachedHitStep (i : Nat) (v : Video) (s : Sys) : Sys :=
  { s with sent := s.sent ++ [SoundAction.PlayVideo v],
           workers := s.workers.set i ⟨.idle, false⟩ }

/-- Per-iteration summary: no sidecar — worker `i` deletes a leftover
partial media file if one exists and moves on towards claiming the track. -/
def checkPartialStep (i : Nat) (v : Video) (s : Sys) : Sys :=
  { s with fs := fsRemoveFile (downloadPathMp4 v.video_id) s.fs,
           workers := s.workers.set i ⟨.checked v, false⟩ }

/-- Per-iteration summary of `IN_DOWNLOAD.lock().unwrap().push(...)`:
worker `i` claims the track and starts `handle_download`. -/
def claimStep (i : Nat) (v : Video) (s : Sys) : Sys :=
  { s with inDownload := s.inDownload ++ [v],
           workers := s.workers.set i ⟨.inflight v, false⟩ }

/-- Per-iteration summary of a successful fetch: the media file is in
place, the sidecar is written, the database appended, the claim released
and `PlayVideo` sent; the iteration ends back at the loop head. -/
def commitStep (i : Nat) (v : Video) (s : Sys) : Sys :=
  { s with
    fs := fsWrite (downloadPathJson v.video_id) (serializeVideo v)
      (fsWrite (downloadPathMp4 v.video_id) mediaBlob s.fs),
    db := s.db ++ [v],
    inDownload := retainNot v.video_id s.inDownload,
    sent := s.sent ++ [SoundAction.PlayVideo v],
    workers := s.workers.set i ⟨.idle, false⟩ }

/-- Per-iteration summary of a failed fetch: delete any partial media
file, release the claim, and end the iteration back at the loop head;
nothing is sent, logged or re-queued. -/
def failStep (i : Nat) (v : Video) (s : Sys) : Sys :=
  { s with
    fs := fsRemoveFile (downloadPathMp4 v.video_id) s.fs,
    inDownload := retainNot v.video_id s.inDownload,
    workers := s.workers.set i ⟨.idle, false⟩ }

/-- One whole iteration of the loop body of `start_task` run by worker `i`
without interleaving, for the per-iteration (functional) properties. `ok`
is the outcome of `handle_download`. -/
def workerIter (i : Nat) (ok : Bool) (s : Sys) : Sys :=
  if s.downloadMore = false then s
  else
    match s.queue with
    | [] => s
    | v :: rest =>
      let s1 := popStep i v rest s
      if fsExists (downloadPathJson v.video_id) s1.fs then
        cachedHitStep i v s1
      else
        let s2 := checkPartialStep i v s1
        let s3 := claimStep i v s2
        if ok then commitStep i v s3 else failStep i v s3

/-- Worker `i` is woken up (the loop-head `sleep` returns, or the task is
polled for the first time): only a live task resumes from an await. -/
def resumeSec (i : Nat) (s : Sys) : Sys :=
  { s with workers := s.workers.set i ⟨.running, false⟩ }

/-- Worker `i` reaches the loop-head `sleep` (queue empty or downloads
disabled) and suspends; its abort flag `b` is carried along. -/
def parkSec (i : Nat) (b : Bool) (s : Sys) : Sys :=
  { s with workers := s.workers.set i ⟨.idle, b⟩ }

/-- Critical section of `take()`: worker `i` pops `v` under the queue lock
and holds it locally. -/
def popSec (i : Nat) (b : Bool) (v : Video) (rest : List Video) (s : Sys) : Sys :=
  { s with queue := rest, workers := s.workers.set i ⟨.popped v, b⟩ }

/-- The sidecar already exists: worker `i` sends `PlayVideo`, sets
`k = true` and continues synchronously into the next iteration. -/
def cachedHitSec (i : Nat) (b : Bool) (v : Video) (s : Sys) : Sys :=
  { s with sent := s.sent ++ [SoundAction.PlayVideo v],
           workers := s.workers.set i ⟨.running, b⟩ }

/-- No sidecar: worker `i` deletes a leftover partial media file if one
exists. -/
def checkPartialSec (i : Nat) (b : Bool) (v : Video) (s : Sys) : Sys :=
  { s with fs := fsRemoveFile (downloadPathMp4 v.video_id) s.fs,
           workers := s.workers.set i ⟨.checked v, b⟩ }

/-- `IN_DOWNLOAD.lock().unwrap().push(id.clone())`: worker `i` claims the
track, then first polls `handle_download` and suspends at its awaits. -/
def claimSec (i : Nat) (b : Bool) (v : Video) (s : Sys) : Sys :=
  { s with inDownload := s.inDownload ++ [v],
           workers := s.workers.set i ⟨.inflight v, b⟩ }

/-- `handle_download` resolves `Ok`: the media file is on disk and the
task resumes into the synchronous commit arm (only a live task resumes
from the download awaits). -/
def resolveOkSec (i : Nat) (v : Video) (s : Sys) : Sys :=
  { s with fs := fsWrite (downloadPathMp4 v.video_id) mediaBlob s.fs,
           workers := s.workers.set i ⟨.resolvedOk v, false⟩ }

/-- `handle_download` resolves `Err` and the task resumes into the
synchronous discard arm. -/
def resolveErrSec (i : Nat) (v : Video) (s : Sys) : Sys :=
  { s with workers := s.workers.set i ⟨.resolvedErr v, false⟩ }

/-- The commit arm of `start_task`: write the sidecar, append the
database, release the claim, send `PlayVideo`; `k = true` keeps the task
running synchronously into the next iteration. -/
def commitSec (i : Nat) (b : Bool) (v : Video) (s : Sys) : Sys :=
  { s with
    fs := fsWrite (downloadPathJson v.video_id) (serializeVideo v) s.fs,
    db := s.db ++ [v],
    inDownload := retainNot v.video_id s.inDownload,
    sent := s.sent ++ [SoundAction.PlayVideo v],
    workers := s.workers.set i ⟨.running, b⟩ }

/-- The discard arm of `start_task`: remove any partial media file and
release the claim; `k` stays false, so the task next suspends at the
loop-head `sleep`. -/
def failSec (i : Nat) (b : Bool) (v : Video) (s : Sys) : Sys :=
  { s with
    fs := fsRemoveFile (downloadPathMp4 v.video_id) s.fs,
    inDownload := retainNot v.video_id s.inDownload,
    workers := s.workers.set i ⟨.idle, b⟩ }

/-- Transition labels: a producer calling `add`, one of the five
separately-locked sections of `clean`/`downloader`, or worker `i` at one
of its critical sections. -/
inductive Label where
  | enqueue (v : Video)
  | clearQueue
  | abortHandles
  | clearInflight
  | enableDownloads
  | startTask
  | resume (i : Nat)
  | park (i : Nat)
  | pop (i : Nat)
  | cachedHit (i : Nat)
  | checkPartial (i : Nat)
  | claim (i : Nat)
  | resolveOk (i : Nat)
  | resolveErr (i : Nat)
  | commit (i : Nat)
  | fail (i : Nat)
deriving DecidableEq

/-- The worker a label belongs to, when it is a worker step. -/
def Label.workerIdx : Label → Option Nat
  | .enqueue _ => none
  | .clearQueue => none
  | .abortHandles => none
  | .clearInflight => none
  | .enableDownloads => none
  | .startTask => none
  | .resume i => some i
  | .park i => some i
  | .pop i => some i
  | .cachedHit i => some i
  | .checkPartial i => some i
  | .claim i => some i
  | .resolveOk i => some i
  | .resolveErr i => some i
  | .commit i => some i
  | .fail i => some i

/-- The labelled transition relation of the download subsystem. Each
constructor is one critical section (or await crossing) of the source.
Tokio's `JoinHandle::abort` cancels a task only at an await point, so
only the two steps that cross an await — `resume` and
`resolveOk`/`resolveErr` — require the worker's handle not to be aborted;
every synchronous section runs to completion whatever the flag, which is
how an aborted worker can still push to `IN_DOWNLOAD` or run its commit
arm after a reset. -/
inductive Step : Label → Sys → Sys → Prop where
  | enqueue (v : Video) (s : Sys) : Step (.enqueue v) s (add v s)
  | clearQueue (s : Sys) : Step .clearQueue s (clearQueueSec s)
  | abortHandles (s : Sys) : Step .abortHandles s (abortHandlesSec s)
  | clearInflight (s : Sys) : Step .clearInflight s (clearInflightSec s)
  | enableDownloads (s : Sys) : Step .enableDownloads s (enableDownloadsSec s)
  | startTask (s : Sys) : Step .startTask s (startTaskSec s)
  | resume (s : Sys) (i : Nat)
      (hw : s.workers[i]? = some ⟨.idle, false⟩) :
      Step (.resume i) s (resumeSec i s)
  | park (s : Sys) (i : Nat) (b : Bool)
      (hw : s.workers[i]? = some ⟨.running, b⟩)
      (hguard : s.queue = [] ∨ s.downloadMore = false) :
      Step (.park i) s (parkSec i b s)
  | pop (s : Sys) (i : Nat) (b : Bool) (v : Video) (rest : List Video)
      (hw : s.workers[i]? = some ⟨.running, b⟩)
      (hdm : s.downloadMore = true)
      (hq : s.queue = v :: rest) :
      Step (.pop i) s (popSec i b v rest s)
  | cachedHit (s : Sys) (i : Nat) (b : Bool) (v : Video)
      (hw : s.workers[i]? = some ⟨.popped v, b⟩)
      (hjson : fsExists (downloadPathJson v.video_id) s.fs = true) :
      Step (.cachedHit i) s (cachedHitSec i b v s)
  | checkPartial (s : Sys) (i : Nat) (b : Bool) (v : Video)
      (hw : s.workers[i]? = some ⟨.popped v, b⟩)
      (hjson : fsExists (downloadPathJson v.video_id) s.fs = false) :
      Step (.checkPartial i) s (checkPartialSec i b v s)
  | claim (s : Sys) (i : Nat) (b : Bool) (v : Video)
      (hw : s.workers[i]? = some ⟨.checked v, b⟩) :
      Step (.claim i) s (claimSec i b v s)
  | resolveOk (s : Sys) (i : Nat) (v : Video)
      (hw : s.workers[i]? = some ⟨.inflight v, false⟩) :
      Step (.resolveOk i) s (resolveOkSec i v s)
  | resolveErr (s : Sys) (i : Nat) (v : Video)
      (hw : s.workers[i]? = some ⟨.inflight v, false⟩) :
      Step (.resolveErr i) s (resolveErrSec i v s)
  | commit (s : Sys) (i : Nat) (b : Bool) (v : Video)
      (hw : s.workers[i]? = some ⟨.resolvedOk v, b⟩) :
      Step (.commit i) s (commitSec i b v s)
  | fail (s : Sys) (i : Nat) (b : Bool) (v : Video)
      (hw : s.workers[i]? = some ⟨.resolvedErr v, b⟩) :
      Step (.fail i) s (failSec i b v s)

/-- Some step, whoever moves. -/
def AnyStep (s t : Sys) : Prop := ∃ l, Step l s t

/-- `t` is reachable from `s` by interleaved steps. -/
def Reach (s t : Sys) : Prop := Relation.ReflTransGen AnyStep s t

/-- A remote stream descriptor as `handle_download` reads it (the stream
type lives in the external downloader crate; these are the fields the
source and the spec's "Track source interface" name, plus the stream's
`itag`, which distinguishes otherwise equal descriptors). -/
structure RStream where
  itag : Nat
  mime : String
  bitrate : Nat
  includes_audio_track : Bool
  includes_video_track : Bool
deriving DecidableEq

/-- The stream filter of `handle_download`. -/
def streamFilter (s : RStream) : Bool :=
  s.mime == "audio/mp4" && s.includes_audio_track && !s.includes_video_track

/-- Rust `Iterator::max_by_key`: of several equally maximal elements the
LAST one is returned (an earlier element replaces a later maximum only
when strictly greater). -/
def maxByKey (key : RStream → Nat) : List RStream → Option RStream
  | [] => none
  | x :: xs =>
    match maxByKey key xs with
    | none => some x
    | some m => if key m < key x then some x else some m

/-- The stream `handle_download` downloads: filter, then `max_by_key` on
the bitrate. -/
def selectStream (streams : List RStream) : Option RStream :=
  maxByKey (·.bitrate) (streams.filter streamFilter)

/-- First maximum: of several equally maximal elements the FIRST one. -/
def maxByKeyFirst (key : RStream → Nat) : List RStream → Option RStream
  | [] => none
  | x :: xs =>
    match maxByKeyFirst key xs with
    | none => some x
    | some m => if key x < key m then some m else some x

/-- The selection exactly as the claim words it, for comparison with
`selectStream`: keep the audio-only streams (audio present, no video
track) and pick the maximum bitrate, ties to the first encountered. -/
def selectStreamSpec (streams : List RStream) : Option RStream :=
  maxByKeyFirst (·.bitrate)
    (streams.filter fun s => s.includes_audio_track && !s.includes_video_track)

/-- Rust `Path::ends_with`: the child's components are a suffix of the
path's components (no string-suffix comparison happens). -/
def pathEndsWith (p child : FsPath) : Bool :=
  child.isSuffixOf p

/-- Split a file name (as characters) at its last dot: `none` when it has
no dot. -/
def lastDotSplit : List Char → Option (List Char × List Char)
  | [] => none
  | c :: rest =>
    match lastDotSplit rest with
    | some (st, ex) => some (c :: st, ex)
    | none => if c = '.' then some ([], rest) else none

/-- Rust `PathBuf::set_extension` on one file name: replace what follows
the last dot, except that a name whose only dot leads it has no extension
and gets `.ext` appended (as does a dotless name). -/
def setFileExtension (name ext : String) : String :=
  match lastDotSplit name.toList with
  | some ([], _) => name ++ "." ++ ext
  | some (st, _) => String.mk st ++ "." ++ ext
  | none => name ++ "." ++ ext

/-- Rust `PathBuf::set_extension`: rewrite the last component. -/
def setExtension (p : FsPath) (ext : String) : FsPath :=
  match p.getLast? with
  | none => p
  | some name => p.dropLast ++ [setFileExtension name ext]

/-- An entry `read_dir(CACHE_DIR.join("downloads"))` yields: a direct
child of the downloads directory. -/
def inDownloadsDir (p : FsPath) : Bool :=
  p.head? == some "downloads" && p.length == 2

/-- `main::clean`, the startup cleanup: for every entry of the downloads
directory, if `path.ends_with(".mp4")` holds and the sibling `.json` does
not exist, remove the file. The directory listing is a snapshot, and a
removed `.mp4` is never another entry's `.json` sibling, so the loop is
this filter. -/
def cleanStartup (fs : FS) : FS :=
  fs.filter fun e =>
    !(inDownloadsDir e.1 && pathEndsWith e.1 [".mp4"]
      && !(fsExists (setExtension e.1 "json") fs))

/-- Modelled from the spec: the Player Controller's session state
(`src/systems/player.rs` is not among the repository files given; the
Upcoming Queue / Current Slot / Previous Stack partition and the
`Next(n)`/`Previous(n)` table of §4.3 are modelled from the spec's words).
`Next`/`Previous` presuppose a bound Current Slot, so the slot is a plain
field here. The most recent history entry sits at the end of `previous`. -/
structure PlayerState where
  upcoming : List Video
  current : Video
  previous : List Video
deriving DecidableEq

/-- Modelled from the spec: one skip forward — Current moves into the
Previous Stack, the head of Upcoming becomes Current; with Upcoming
exhausted the state stays where it is. -/
def nextOne (s : PlayerState) : PlayerState :=
  match s.upcoming with
  | [] => s
  | u :: us => { upcoming := us, current := u, previous := s.previous ++ [s.current] }

/-- Modelled from the spec: one step back — Current is pushed onto the
front of Upcoming, the most recent Previous entry becomes Current; with
the Previous Stack exhausted the state stays where it is. -/
def previousOne (s : PlayerState) : PlayerState :=
  match s.previous.getLast? with
  | none => s
  | some c =>
    { upcoming := s.current :: s.upcoming, current := c, previous := s.previous.dropLast }

/-- Modelled from the spec: `Next(n)` pops up to `n` items, i.e. `n` single
skips. -/
def nextN (n : Nat) (s : PlayerState) : PlayerState :=
  nextOne^[n] s

/-- Modelled from the spec: `Previous(n)` pops up to `n` items from the
Previous Stack, i.e. `n` single steps back. -/
def previousN (n : Nat) (s : PlayerState) : PlayerState :=
  previousOne^[n] s

/-- A concrete track for the closed counterexamples and witnesses. -/
def videoT : Video := ⟨"vidT", "Title T", "Author T"⟩

/-- A second concrete track. -/
def videoU : Video := ⟨"vidU", "Title U", "Author U"⟩

/-- The state reached by enqueueing `videoT` twice on the start state and
letting worker 0 wake up, pop and claim its first copy: the second copy is
still pending while the first is in flight. -/
def dupClaimState : Sys :=
  claimSec 0 false videoT (checkPartialSec 0 false videoT
    (popSec 0 false videoT [videoT] (resumeSec 0 (add videoT (add videoT initSys)))))

/-- The state where worker 0 has fetched `videoT` and its download has
just resolved `Ok`: the worker sits at the start of its synchronous
commit arm, the claim still registered, the sidecar not yet written. -/
def resolvedAtResetState : Sys :=
  resolveOkSec 0 videoT (claimSec 0 false videoT (checkPartialSec 0 false videoT
    (popSec 0 false videoT [] (resumeSec 0 (add videoT initSys)))))

/-- The state after a full uninterrupted reset hit `resolvedAtResetState`
and then the aborted worker 0 — cancellable only at its next await — ran
its commit arm anyway: sidecar written, database appended, `PlayVideo`
sent, all after `clean` returned. -/
def zombieCommitState : Sys :=
  commitSec 0 true videoT (cleanDownload resolvedAtResetState)

/-- An audio-only stream that is not `audio/mp4`, with the top bitrate. -/
def exS0 : RStream := ⟨0, "audio/webm", 100, true, false⟩

/-- An `audio/mp4` audio-only stream. -/
def exS1 : RStream := ⟨1, "audio/mp4", 50, true, false⟩

/-- A second `audio/mp4` audio-only stream with the same bitrate as
`exS1`. -/
def exS2 : RStream := ⟨2, "audio/mp4", 50, true, false⟩

/-- The stream list exercising both the filter and the tie-break. -/
def exStreams : List RStream := [exS0, exS1, exS2]

/-- A start state with one pending track and an empty cache. -/
def pendingTState : Sys := { initSys with queue := [videoT] }

/-- A start state whose cache already holds the sidecar of `videoT`. -/
def cachedTState : Sys :=
  { initSys with fs := [(downloadPathJson videoT.video_id, serializeVideo videoT)] }

/-- A state where `videoT` is pending and its sidecar already exists. -/
def cachedPendingTState : Sys :=
  { initSys with
    queue := [videoT],
    fs := [(downloadPathJson videoT.video_id, serializeVideo videoT)] }

/-- A cache directory holding one media file without its sidecar (a crash
mid-download). -/
def partialOnlyFS : FS := [(["downloads", "abc.mp4"], "partial-bytes")]

/-- A concrete player state of the session-queue round trip. -/
def exPlayer : PlayerState := ⟨[videoT, videoU], ⟨"cur", "Cur", "Cur"⟩, [videoU, videoT]⟩

/-- `add` never touches `IN_DOWNLOAD`. -/
theorem add_inDownload (v : Video) (s : Sys) : (add v s).inDownload = s.inDownload := by
  unfold add; split <;> rfl

/-- `add` never touches the worker pool. -/
theorem add_workers (v : Video) (s : Sys) : (add v s).workers = s.workers := by
  unfold add; split <;> rfl

/-- Reading back a file just written yields the written content. -/
theorem fsRead_fsWrite_self (p : FsPath) (c : String) (fs : FS) :
    fsRead p (fsWrite p c fs) = some c := by
  simp [fsRead, fsWrite]

/-- Removing a file twice is removing it once. -/
theorem fsRemoveFile_idem (p : FsPath) (fs : FS) :
    fsRemoveFile p (fsRemoveFile p fs) = fsRemoveFile p fs := by
  simp [fsRemoveFile, List.filter_filter]

/-- `retain` erases the very element just pushed, together with every other
entry of the same identity. -/
theorem retainNot_append_self (v : Video) (l : List Video) :
    retainNot v.video_id (l ++ [v]) = retainNot v.video_id l := by
  simp [retainNot, List.filter_append]

/-- C1 (counterexample). The claim says an enqueue whose identity is
already pending is dropped; in the source `add` has no such check: after
one enqueue of `videoT` on the empty start state its identity is pending,
and a second enqueue of the same identity still appends, leaving two
entries in the Pending Queue. -/
theorem c1_counterexample :
    videoT ∈ (add videoT initSys).queue ∧
    (add videoT (add videoT initSys)).queue = [videoT, videoT] := by
  constructor <;> decide

/-- C1 (amended). For every track whose cache sidecar does not exist,
`download::add` appends the track to the Pending Queue unconditionally —
whether or not the identity is already present in the Pending Queue or the
In-Flight Set — and changes nothing else; duplicate enqueues therefore
yield duplicate pending entries. -/
theorem c1_enqueue_appends_unconditionally (v : Video) (s : Sys)
    (hjson : fsExists (downloadPathJson v.video_id) s.fs = false) :
    (add v s).queue = s.queue ++ [v] ∧ (add v s).sent = s.sent ∧
    (add v s).inDownload = s.inDownload ∧ (add v s).fs = s.fs := by
  simp [add, hjson]

/-- C1 (witness): the amended statement at `videoT` on the start state. -/
theorem c1_enqueue_appends_witness :
    (add videoT initSys).queue = initSys.queue ++ [videoT] ∧
    (add videoT initSys).sent = initSys.sent ∧
    (add videoT initSys).inDownload = initSys.inDownload ∧
    (add videoT initSys).fs = initSys.fs :=
  c1_enqueue_appends_unconditionally videoT initSys (by decide)

/-- C5. Fast path of `download::add`: when the sidecar already exists the
call sends exactly one `PlayVideo` command and leaves the Pending Queue —
and all other state — unchanged. -/
theorem c5_fast_path (v : Video) (s : Sys)
    (hjson : fsExists (downloadPathJson v.video_id) s.fs = true) :
    (add v s).sent = s.sent ++ [SoundAction.PlayVideo v] ∧
    (add v s).queue = s.queue ∧ (add v s).inDownload = s.inDownload ∧
    (add v s).fs = s.fs := by
  simp [add, hjson]

/-- C5 (witness): the fast path at `videoT` on a state whose cache holds
its sidecar. -/
theorem c5_fast_path_witness :
    (add videoT cachedTState).sent = cachedTState.sent ++ [SoundAction.PlayVideo videoT] ∧
    (add videoT cachedTState).queue = cachedTState.queue ∧
    (add videoT cachedTState).inDownload = cachedTState.inDownload ∧
    (add videoT cachedTState).fs = cachedTState.fs :=
  c5_fast_path videoT cachedTState (by decide)

/-- C3 (code bug). The startup cleanup `main::clean` tests
`path.ends_with(".mp4")`, which under Rust `Path::ends_with` compares whole
components; a real media file name such as `abc.mp4` is a single component
different from `.mp4`, so the test is false and the sidecar-less media
file survives the cleanup — contrary to the function's own documentation
("clean ... the files that are incompletly downloaded due to a crash"). -/
theorem c3_cleanup_skips_partial_media :
    pathEndsWith ["downloads", "abc.mp4"] [".mp4"] = false ∧
    fsExists ["downloads", "abc.json"] partialOnlyFS = false ∧
    cleanStartup partialOnlyFS = partialOnlyFS := by
  refine ⟨by decide, by decide, by decide⟩

/-- C10. Claim-time short circuit of the worker loop: when the popped
track's sidecar already exists, the iteration sends exactly one
`PlayVideo`, performs no resolution, download or deletion (the filesystem
is untouched), never touches `IN_DOWNLOAD`, and returns the worker to the
loop head. -/
theorem c10_claim_time_short_circuit (s : Sys) (i : Nat) (v : Video) (rest : List Video)
    (ok : Bool) (hdm : s.downloadMore = true) (hq : s.queue = v :: rest)
    (hjson : fsExists (downloadPathJson v.video_id) s.fs = true) :
    (workerIter i ok s).sent = s.sent ++ [SoundAction.PlayVideo v] ∧
    (workerIter i ok s).inDownload = s.inDownload ∧
    (workerIter i ok s).fs = s.fs ∧
    (workerIter i ok s).db = s.db ∧
    (workerIter i ok s).queue = rest ∧
    (workerIter i ok s).workers = s.workers.set i ⟨WPc.idle, false⟩ := by
  simp [workerIter, hdm, hq, popStep, cachedHitStep, hjson]

/-- C10 (witness): the short circuit at `videoT`, pending with its sidecar
already cached. -/
theorem c10_short_circuit_witness :
    (workerIter 0 true cachedPendingTState).sent
      = cachedPendingTState.sent ++ [SoundAction.PlayVideo videoT] ∧
    (workerIter 0 true cachedPendingTState).inDownload = cachedPendingTState.inDownload ∧
    (workerIter 0 true cachedPendingTState).fs = cachedPendingTState.fs ∧
    (workerIter 0 true cachedPendingTState).db = cachedPendingTState.db ∧
    (workerIter 0 true cachedPendingTState).queue = [] ∧
    (workerIter 0 true cachedPendingTState).workers
      = cachedPendingTState.workers.set 0 ⟨WPc.idle, false⟩ :=
  c10_claim_time_short_circuit cachedPendingTState 0 videoT [] true rfl rfl (by decide)

/-- C7 (counterexample). The claim says a failed fetch is logged; the
failure branch of `start_task` contains no logging call at all: on a state
with one pending uncached track whose download fails, the iteration runs
(the track is consumed and nothing is sent) and the log stays empty,
where the claim requires a logged failure. -/
theorem c7_counterexample :
    (workerIter 0 false pendingTState).queue = [] ∧
    (workerIter 0 false pendingTState).sent = [] ∧
    (workerIter 0 false pendingTState).log = [] := by
  refine ⟨by decide, by decide, by decide⟩

/-- C7 (amended). For every worker iteration whose fetch fails, the worker
deletes any partial media file, removes the identity from the In-Flight
Set, does not re-enqueue or retry the track, sends no ready notification
and writes no log line; the iteration ends with the worker back at the
loop head, so the failure never propagates outside that iteration. -/
theorem c7_failure_contained (s : Sys) (i : Nat) (v : Video) (rest : List Video)
    (hdm : s.downloadMore = true) (hq : s.queue = v :: rest)
    (hjson : fsExists (downloadPathJson v.video_id) s.fs = false) :
    (workerIter i false s).fs = fsRemoveFile (downloadPathMp4 v.video_id) s.fs ∧
    (workerIter i false s).inDownload = retainNot v.video_id s.inDownload ∧
    (workerIter i false s).queue = rest ∧
    (workerIter i false s).sent = s.sent ∧
    (workerIter i false s).log = s.log ∧
    (workerIter i false s).db = s.db ∧
    (workerIter i false s).workers = s.workers.set i ⟨WPc.idle, false⟩ := by
  simp [workerIter, hdm, hq, popStep, checkPartialStep, claimStep, failStep, hjson,
    fsRemoveFile_idem, retainNot_append_self, List.set_set]

/-- C7 (witness): the amended statement at `videoT` pending on an empty
cache. -/
theorem c7_failure_contained_witness :
    (workerIter 0 false pendingTState).fs
      = fsRemoveFile (downloadPathMp4 videoT.video_id) pendingTState.fs ∧
    (workerIter 0 false pendingTState).inDownload
      = retainNot videoT.video_id pendingTState.inDownload ∧
    (workerIter 0 false pendingTState).queue = [] ∧
    (workerIter 0 false pendingTState).sent = pendingTState.sent ∧
    (workerIter 0 false pendingTState).log = pendingTState.log ∧
    (workerIter 0 false pendingTState).db = pendingTState.db ∧
    (workerIter 0 false pendingTState).workers
      = pendingTState.workers.set 0 ⟨WPc.idle, false⟩ :=
  c7_failure_contained pendingTState 0 videoT [] rfl rfl (by decide)

/-- C8. Commit postcondition: a successful fetch writes the sidecar whose
content is the serialized track, removes the identity from the In-Flight
Set, appends the track to the database, and posts exactly one `PlayVideo`
command carrying the track. -/
theorem c8_commit_postcondition (s : Sys) (i : Nat) (v : Video) (rest : List Video)
    (hdm : s.downloadMore = true) (hq : s.queue = v :: rest)
    (hjson : fsExists (downloadPathJson v.video_id) s.fs = false) :
    fsRead (downloadPathJson v.video_id) (workerIter i true s).fs = some (serializeVideo v) ∧
    (workerIter i true s).inDownload = retainNot v.video_id s.inDownload ∧
    (workerIter i true s).sent = s.sent ++ [SoundAction.PlayVideo v] ∧
    (workerIter i true s).db = s.db ++ [v] ∧
    (workerIter i true s).queue = rest ∧
    (workerIter i true s).workers = s.workers.set i ⟨WPc.idle, false⟩ := by
  simp [workerIter, hdm, hq, popStep, checkPartialStep, claimStep, commitStep, hjson,
    fsRead_fsWrite_self, retainNot_append_self, List.set_set]

/-- Setting worker `i` leaves every other slot of the pool unchanged. -/
theorem set_keeps_other {ws : List Worker} {i j : Nat} {a w : Worker}
    (hne : i ≠ j) (hj : ws[j]? = some w) : (ws.set i a)[j]? = some w := by
  rw [List.getElem?_set_ne hne]; exact hj

/-- The duplicate-claim state is reachable from startup: enqueue `videoT`
twice, then let worker 0 wake up, pop, check and claim the first copy. -/
theorem dupClaimState_reachable : Reach initSys dupClaimState := by
  have h1 : AnyStep initSys (add videoT initSys) := ⟨_, Step.enqueue videoT initSys⟩
  have h2 : AnyStep (add videoT initSys) (add videoT (add videoT initSys)) :=
    ⟨_, Step.enqueue videoT (add videoT initSys)⟩
  have h3 : AnyStep (add videoT (add videoT initSys))
      (resumeSec 0 (add videoT (add videoT initSys))) :=
    ⟨_, Step.resume _ 0 (by decide)⟩
  have h4 : AnyStep (resumeSec 0 (add videoT (add videoT initSys)))
      (popSec 0 false videoT [videoT] (resumeSec 0 (add videoT (add videoT initSys)))) :=
    ⟨_, Step.pop _ 0 false videoT [videoT] (by decide) (by decide) (by decide)⟩
  have h5 : AnyStep (popSec 0 false videoT [videoT]
        (resumeSec 0 (add videoT (add videoT initSys))))
      (checkPartialSec 0 false videoT (popSec 0 false videoT [videoT]
        (resumeSec 0 (add videoT (add videoT initSys))))) :=
    ⟨_, Step.checkPartial _ 0 false videoT (by decide) (by decide)⟩
  have h6 : AnyStep (checkPartialSec 0 false videoT (popSec 0 false videoT [videoT]
      (resumeSec 0 (add videoT (add videoT initSys))))) dupClaimState :=
    ⟨_, Step.claim _ 0 false videoT (by decide)⟩
  exact Relation.ReflTransGen.trans (.single h1) (.trans (.single h2)
    (.trans (.single h3) (.trans (.single h4) (.trans (.single h5) (.single h6)))))

/-- C2 (counterexample). The claimed invariant — an identity is in at most
one of Pending Queue and In-Flight Set — fails on a reachable state:
after two enqueues of `videoT` (not deduplicated, see C1) and one worker
claim, `videoT` is simultaneously pending and in flight. The pop and the
In-Flight insertion are also separate critical sections of two different
locks, with the sidecar and partial-file checks between them, so the
insertion happens well after the queue lock of the pop is released. -/
theorem c2_counterexample :
    Reach initSys dupClaimState ∧
    videoT ∈ dupClaimState.queue ∧ videoT ∈ dupClaimState.inDownload :=
  ⟨dupClaimState_reachable, by decide, by decide⟩

/-- C2 (amended). The In-Flight insertion is not under the pop's queue
lock: the pop's critical section leaves the In-Flight Set untouched and
only moves the worker to the `popped` position; the next section (the
sidecar/partial-file handling) touches neither the queue nor the In-Flight
Set; and the insertion happens only in the claim section — enabled solely
from the `checked` position, hence strictly after the pop's queue lock was
released — which itself leaves the queue untouched. -/
theorem c2_claim_in_separate_section (i : Nat) (s t : Sys) :
    (Step (Label.pop i) s t → t.inDownload = s.inDownload ∧
      ∃ v : Video, ∃ b : Bool, ∃ rest : List Video,
        s.queue = v :: rest ∧ t.workers = s.workers.set i ⟨WPc.popped v, b⟩) ∧
    (Step (Label.checkPartial i) s t → t.inDownload = s.inDownload ∧ t.queue = s.queue ∧
      ∃ v : Video, ∃ b : Bool, s.workers[i]? = some ⟨WPc.popped v, b⟩ ∧
        t.workers = s.workers.set i ⟨WPc.checked v, b⟩) ∧
    (Step (Label.claim i) s t → t.queue = s.queue ∧
      ∃ v : Video, ∃ b : Bool, s.workers[i]? = some ⟨WPc.checked v, b⟩ ∧
        t.inDownload = s.inDownload ++ [v]) := by
  refine ⟨?_, ?_, ?_⟩
  · intro h
    cases h with
    | pop _ _ b v rest hw hdm hq => exact ⟨rfl, v, b, rest, hq, rfl⟩
  · intro h
    cases h with
    | checkPartial _ _ b v hw hjson => exact ⟨rfl, rfl, v, b, hw, rfl⟩
  · intro h
    cases h with
    | claim _ _ b v hw => exact ⟨rfl, v, b, hw, rfl⟩

/-- Live workers of the pool after every existing handle is aborted:
none. -/
theorem filter_live_map_aborted (l : List Worker) :
    ((l.map fun w => { w with aborted := true }).filter fun w => !w.aborted) = [] := by
  induction l with
  | nil => rfl
  | cons a l ih => simp [ih]

/-- `cleanDownload` aborts every worker that existed before it ran, in
place. -/
theorem cleanDownload_aborts (s : Sys) (i : Nat) (w : Worker)
    (hi : s.workers[i]? = some w) :
    (cleanDownload s).workers[i]? = some ⟨w.pc, true⟩ := by
  have hlen : i < s.workers.length := (List.getElem?_eq_some.mp hi).1
  have hwk : (cleanDownload s).workers
      = (s.workers.map fun w => { w with aborted := true })
        ++ List.replicate DOWNLOADER_COUNT freshWorker := rfl
  rw [hwk, List.getElem?_append_left (by simpa using hlen), List.getElem?_map, hi]
  rfl

/-- A worker aborted while parked at an await point is frozen: no single
transition changes its slot. Its own `resume`/`resolve` steps demand a
live flag, every other position-specific step demands a non-parked
position, and steps by other threads leave its slot alone. -/
theorem step_parked_frozen {lb : Label} {s t : Sys} (h : Step lb s t) {i : Nat}
    {pc : WPc} (hi : s.workers[i]? = some ⟨pc, true⟩) (hp : isParked pc = true) :
    t.workers[i]? = some ⟨pc, true⟩ := by
  cases h with
  | enqueue v s => rw [add_workers]; exact hi
  | clearQueue s => exact hi
  | abortHandles s =>
    have hwk : (abortHandlesSec s).workers
        = s.workers.map fun w => { w with aborted := true } := rfl
    rw [hwk, List.getElem?_map, hi]
    rfl
  | clearInflight s => exact hi
  | enableDownloads s => exact hi
  | startTask s =>
    have hlen : i < s.workers.length := (List.getElem?_eq_some.mp hi).1
    have hwk : (startTaskSec s).workers = s.workers ++ [freshWorker] := rfl
    rw [hwk, List.getElem?_append_left hlen]
    exact hi
  | resume s j hw =>
    have hne : j ≠ i := by intro h; subst h; rw [hw] at hi; simp at hi
    exact set_keeps_other hne hi
  | park s j bb hw hguard =>
    have hne : j ≠ i := by
      intro h; subst h; rw [hw] at hi
      obtain ⟨h1, h2⟩ : WPc.running = pc ∧ bb = true := by simpa using hi
      rw [← h1] at hp; simp [isParked] at hp
    exact set_keeps_other hne hi
  | pop s j bb v rest hw hdm hq =>
    have hne : j ≠ i := by
      intro h; subst h; rw [hw] at hi
      obtain ⟨h1, h2⟩ : WPc.running = pc ∧ bb = true := by simpa using hi
      rw [← h1] at hp; simp [isParked] at hp
    exact set_keeps_other hne hi
  | cachedHit s j bb v hw hjson =>
    have hne : j ≠ i := by
      intro h; subst h; rw [hw] at hi
      obtain ⟨h1, h2⟩ : WPc.popped v = pc ∧ bb = true := by simpa using hi
      rw [← h1] at hp; simp [isParked] at hp
    exact set_keeps_other hne hi
  | checkPartial s j bb v hw hjson =>
    have hne : j ≠ i := by
      intro h; subst h; rw [hw] at hi
      obtain ⟨h1, h2⟩ : WPc.popped v = pc ∧ bb = true := by simpa using hi
      rw [← h1] at hp; simp [isParked] at hp
    exact set_keeps_other hne hi
  | claim s j bb v hw =>
    have hne : j ≠ i := by
      intro h; subst h; rw [hw] at hi
      obtain ⟨h1, h2⟩ : WPc.checked v = pc ∧ bb = true := by simpa using hi
      rw [← h1] at hp; simp [isParked] at hp
    exact set_keeps_other hne hi
  | resolveOk s j v hw =>
    have hne : j ≠ i := by intro h; subst h; rw [hw] at hi; simp at hi
    exact set_keeps_other hne hi
  | resolveErr s j v hw =>
    have hne : j ≠ i := by intro h; subst h; rw [hw] at hi; simp at hi
    exact set_keeps_other hne hi
  | commit s j bb v hw =>
    have hne : j ≠ i := by
      intro h; subst h; rw [hw] at hi
      obtain ⟨h1, h2⟩ : WPc.resolvedOk v = pc ∧ bb = true := by simpa using hi
      rw [← h1] at hp; simp [isParked] at hp
    exact set_keeps_other hne hi
  | fail s j bb v hw =>
    have hne : j ≠ i := by
      intro h; subst h; rw [hw] at hi
      obtain ⟨h1, h2⟩ : WPc.resolvedErr v = pc ∧ bb = true := by simpa using hi
      rw [← h1] at hp; simp [isParked] at hp
    exact set_keeps_other hne hi

/-- A parked aborted worker stays frozen along any number of interleaved
steps. -/
theorem reach_parked_frozen {a b : Sys} (h : Reach a b) {i : Nat} {pc : WPc}
    (hi : a.workers[i]? = some ⟨pc, true⟩) (hp : isParked pc = true) :
    b.workers[i]? = some ⟨pc, true⟩ := by
  induction h with
  | refl => exact hi
  | tail _ hstep ih =>
    obtain ⟨l, hl⟩ := hstep
    exact step_parked_frozen hl ih hp

/-- The uninterrupted reset sequence, step by step, reaches
`cleanDownload resolvedAtResetState`, and the aborted worker 0 — still
executing its synchronous commit arm — then commits. -/
theorem zombieCommitState_reachable : Reach initSys zombieCommitState := by
  have h1 : AnyStep initSys (add videoT initSys) := ⟨_, Step.enqueue videoT initSys⟩
  have h2 : AnyStep (add videoT initSys) (resumeSec 0 (add videoT initSys)) :=
    ⟨_, Step.resume _ 0 (by decide)⟩
  have h3 : AnyStep (resumeSec 0 (add videoT initSys))
      (popSec 0 false videoT [] (resumeSec 0 (add videoT initSys))) :=
    ⟨_, Step.pop _ 0 false videoT [] (by decide) (by decide) (by decide)⟩
  have h4 : AnyStep (popSec 0 false videoT [] (resumeSec 0 (add videoT initSys)))
      (checkPartialSec 0 false videoT
        (popSec 0 false videoT [] (resumeSec 0 (add videoT initSys)))) :=
    ⟨_, Step.checkPartial _ 0 false videoT (by decide) (by decide)⟩
  have h5 : AnyStep (checkPartialSec 0 false videoT
        (popSec 0 false videoT [] (resumeSec 0 (add videoT initSys))))
      (claimSec 0 false videoT (checkPartialSec 0 false videoT
        (popSec 0 false videoT [] (resumeSec 0 (add videoT initSys))))) :=
    ⟨_, Step.claim _ 0 false videoT (by decide)⟩
  have h6 : AnyStep (claimSec 0 false videoT (checkPartialSec 0 false videoT
        (popSec 0 false videoT [] (resumeSec 0 (add videoT initSys)))))
      resolvedAtResetState :=
    ⟨_, Step.resolveOk _ 0 videoT (by decide)⟩
  have h7 : AnyStep resolvedAtResetState (clearQueueSec resolvedAtResetState) :=
    ⟨_, Step.clearQueue resolvedAtResetState⟩
  have h8 : AnyStep (clearQueueSec resolvedAtResetState)
      (abortHandlesSec (clearQueueSec resolvedAtResetState)) :=
    ⟨_, Step.abortHandles _⟩
  have h9 : AnyStep (abortHandlesSec (clearQueueSec resolvedAtResetState))
      (clearInflightSec (abortHandlesSec (clearQueueSec resolvedAtResetState))) :=
    ⟨_, Step.clearInflight _⟩
  have h10 : AnyStep
      (clearInflightSec (abortHandlesSec (clearQueueSec resolvedAtResetState)))
      (enableDownloadsSec (clearInflightSec (abortHandlesSec
        (clearQueueSec resolvedAtResetState)))) :=
    ⟨_, Step.enableDownloads _⟩
  have h11 : AnyStep
      (enableDownloadsSec (clearInflightSec (abortHandlesSec
        (clearQueueSec resolvedAtResetState))))
      (startTaskSec (enableDownloadsSec (clearInflightSec (abortHandlesSec
        (clearQueueSec resolvedAtResetState))))) :=
    ⟨_, Step.startTask _⟩
  have h12 : AnyStep
      (startTaskSec (enableDownloadsSec (clearInflightSec (abortHandlesSec
        (clearQueueSec resolvedAtResetState)))))
      (startTaskSec (startTaskSec (enableDownloadsSec (clearInflightSec (abortHandlesSec
        (clearQueueSec resolvedAtResetState)))))) :=
    ⟨_, Step.startTask _⟩
  have h13 : AnyStep
      (startTaskSec (startTaskSec (enableDownloadsSec (clearInflightSec (abortHandlesSec
        (clearQueueSec resolvedAtResetState))))))
      (startTaskSec (startTaskSec (startTaskSec (enableDownloadsSec (clearInflightSec
        (abortHandlesSec (clearQueueSec resolvedAtResetState))))))) :=
    ⟨_, Step.startTask _⟩
  have h14 : AnyStep
      (startTaskSec (startTaskSec (startTaskSec (enableDownloadsSec (clearInflightSec
        (abortHandlesSec (clearQueueSec resolvedAtResetState)))))))
      (startTaskSec (startTaskSec (startTaskSec (startTaskSec (enableDownloadsSec
        (clearInflightSec (abortHandlesSec (clearQueueSec resolvedAtResetState)))))))) :=
    ⟨_, Step.startTask _⟩
  have hE : startTaskSec (startTaskSec (startTaskSec (startTaskSec (enableDownloadsSec
        (clearInflightSec (abortHandlesSec (clearQueueSec resolvedAtResetState)))))))
      = cleanDownload resolvedAtResetState := by decide
  have h15 : AnyStep (cleanDownload resolvedAtResetState) zombieCommitState :=
    ⟨_, Step.commit _ 0 true videoT (by decide)⟩
  have hmid : Reach initSys (cleanDownload resolvedAtResetState) := by
    rw [← hE]
    exact Relation.ReflTransGen.trans (.single h1) (.trans (.single h2)
      (.trans (.single h3) (.trans (.single h4) (.trans (.single h5)
      (.trans (.single h6) (.trans (.single h7) (.trans (.single h8)
      (.trans (.single h9) (.trans (.single h10) (.trans (.single h11)
      (.trans (.single h12) (.trans (.single h13) (.single h14)))))))))))))
  exact Relation.ReflTransGen.tail hmid h15

/-- C6 (counterexample). The claim says no previously-spawned worker can
later mutate cache state for a track in flight at reset time. Tokio's
abort only lands at an await point, so worker 0 — whose download of
`videoT` resolved just before the reset, and which the reset aborts while
it is executing its synchronous commit arm — still writes the sidecar,
appends the database and sends `PlayVideo` after `clean` returned: all
three mutations are visible in the reachable state `zombieCommitState`,
although `videoT` was in flight at reset time and no sidecar existed when
`clean` returned. -/
theorem c6_counterexample :
    Reach initSys zombieCommitState ∧
    videoT ∈ resolvedAtResetState.inDownload ∧
    (cleanDownload resolvedAtResetState).inDownload = [] ∧
    (cleanDownload resolvedAtResetState).workers[0]?
      = some ⟨WPc.resolvedOk videoT, true⟩ ∧
    fsExists (downloadPathJson videoT.video_id)
      (cleanDownload resolvedAtResetState).fs = false ∧
    fsRead (downloadPathJson videoT.video_id) zombieCommitState.fs
      = some (serializeVideo videoT) ∧
    zombieCommitState.db = [videoT] ∧
    zombieCommitState.sent = [SoundAction.PlayVideo videoT] :=
  ⟨zombieCommitState_reachable, by decide, by decide, by decide, by decide,
    by decide, by decide, by decide⟩

/-- C6 (amended). After an uninterrupted `download::clean`: the Pending
Queue and the In-Flight Set are empty, downloads are re-enabled, every
previously existing worker slot is aborted in place, and the live pool is
exactly `DOWNLOADER_COUNT` fresh workers; and every previously-spawned
worker that was suspended at an await point (parked idle, or awaiting its
download) at reset time can never take another step. A worker aborted
mid-synchronous-stretch, however, still runs to its next await point and
can commit afterwards — the original blanket no-later-mutation guarantee
fails (see the counterexample). -/
theorem c6_reset_amended (s : Sys) :
    (cleanDownload s).queue = [] ∧
    (cleanDownload s).inDownload = [] ∧
    (cleanDownload s).downloadMore = true ∧
    (∀ i : Nat, ∀ w : Worker, s.workers[i]? = some w →
      (cleanDownload s).workers[i]? = some ⟨w.pc, true⟩) ∧
    ((cleanDownload s).workers.filter fun w => !w.aborted)
      = List.replicate DOWNLOADER_COUNT freshWorker ∧
    (∀ t : Sys, Reach (cleanDownload s) t → ∀ i : Nat, ∀ w : Worker,
      s.workers[i]? = some w → isParked w.pc = true →
      ∀ lb : Label, lb.workerIdx = some i → ∀ t' : Sys, ¬ Step lb t t') := by
  refine ⟨rfl, rfl, rfl, ?_, ?_, ?_⟩
  · intro i w hi
    exact cleanDownload_aborts s i w hi
  · have hwk : (cleanDownload s).workers
        = (s.workers.map fun w => { w with aborted := true })
          ++ List.replicate DOWNLOADER_COUNT freshWorker := rfl
    rw [hwk, List.filter_append, filter_live_map_aborted]
    rfl
  · intro t hreach i w hi hp lb hidx t' hstep
    have hbase : (cleanDownload s).workers[i]? = some ⟨w.pc, true⟩ :=
      cleanDownload_aborts s i w hi
    have ht : t.workers[i]? = some ⟨w.pc, true⟩ := reach_parked_frozen hreach hbase hp
    cases hstep with
    | enqueue v _ => simp [Label.workerIdx] at hidx
    | clearQueue _ => simp [Label.workerIdx] at hidx
    | abortHandles _ => simp [Label.workerIdx] at hidx
    | clearInflight _ => simp [Label.workerIdx] at hidx
    | enableDownloads _ => simp [Label.workerIdx] at hidx
    | startTask _ => simp [Label.workerIdx] at hidx
    | resume _ j hw =>
      have hji : j = i := by simpa [Label.workerIdx] using hidx
      subst hji
      rw [ht] at hw; simp at hw
    | park _ j bb hw hguard =>
      have hji : j = i := by simpa [Label.workerIdx] using hidx
      subst hji
      rw [ht] at hw
      obtain ⟨h1, h2⟩ : w.pc = WPc.running ∧ true = bb := by simpa using hw
      rw [h1] at hp; simp [isParked] at hp
    | pop _ j bb v rest hw hdm hq =>
      have hji : j = i := by simpa [Label.workerIdx] using hidx
      subst hji
      rw [ht] at hw
      obtain ⟨h1, h2⟩ : w.pc = WPc.running ∧ true = bb := by simpa using hw
      rw [h1] at hp; simp [isParked] at hp
    | cachedHit _ j bb v hw hjson =>
      have hji : j = i := by simpa [Label.workerIdx] using hidx
      subst hji
      rw [ht] at hw
      obtain ⟨h1, h2⟩ : w.pc = WPc.popped v ∧ true = bb := by simpa using hw
      rw [h1] at hp; simp [isParked] at hp
    | checkPartial _ j bb v hw hjson =>
      have hji : j = i := by simpa [Label.workerIdx] using hidx
      subst hji
      rw [ht] at hw
      obtain ⟨h1, h2⟩ : w.pc = WPc.popped v ∧ true = bb := by simpa using hw
      rw [h1] at hp; simp [isParked] at hp
    | claim _ j bb v hw =>
      have hji : j = i := by simpa [Label.workerIdx] using hidx
      subst hji
      rw [ht] at hw
      obtain ⟨h1, h2⟩ : w.pc = WPc.checked v ∧ true = bb := by simpa using hw
      rw [h1] at hp; simp [isParked] at hp
    | resolveOk _ j v hw =>
      have hji : j = i := by simpa [Label.workerIdx] using hidx
      subst hji
      rw [ht] at hw; simp at hw
    | resolveErr _ j v hw =>
      have hji : j = i := by simpa [Label.workerIdx] using hidx
      subst hji
      rw [ht] at hw; simp at hw
    | commit _ j bb v hw =>
      have hji : j = i := by simpa [Label.workerIdx] using hidx
      subst hji
      rw [ht] at hw
      obtain ⟨h1, h2⟩ : w.pc = WPc.resolvedOk v ∧ true = bb := by simpa using hw
      rw [h1] at hp; simp [isParked] at hp
    | fail _ j bb v hw =>
      have hji : j = i := by simpa [Label.workerIdx] using hidx
      subst hji
      rw [ht] at hw
      obtain ⟨h1, h2⟩ : w.pc = WPc.resolvedErr v ∧ true = bb := by simpa using hw
      rw [h1] at hp; simp [isParked] at hp

/-- One skip forward then one step back is the identity whenever Upcoming
is non-empty (the skip pushes the old Current onto the history, so the
step back always has something to pop). -/
theorem previousOne_nextOne (s : PlayerState) (h : s.upcoming ≠ []) :
    previousOne (nextOne s) = s := by
  obtain ⟨up, cur, prev⟩ := s
  cases up with
  | nil => exact absurd rfl h
  | cons u us =>
    simp [nextOne, previousOne, List.getLast?_concat, List.dropLast_concat]

/-- C9. Navigation round trip: from a state whose Upcoming Queue and
Previous Stack both hold at least `n` items, `Next(n)` followed by
`Previous(n)` restores the original Current Slot and the original
Upcoming/Previous partition of the session queue. (Only the Upcoming bound
is actually needed: skipping forward grows the history it later pops.) -/
theorem c9_next_previous_roundtrip (n : Nat) (s : PlayerState)
    (hu : n ≤ s.upcoming.length) (_hp : n ≤ s.previous.length) :
    previousN n (nextN n s) = s := by
  clear _hp
  induction n generalizing s with
  | zero => simp [previousN, nextN]
  | succ n ih =>
    have hne : s.upcoming ≠ [] := by
      intro h; rw [h] at hu; simp at hu
    have hlen : n ≤ (nextOne s).upcoming.length := by
      obtain ⟨up, cur, prev⟩ := s
      cases up with
      | nil => exact absurd rfl hne
      | cons u us =>
        simp [nextOne]
        simpa [Nat.succ_le_succ_iff] using hu
    rw [nextN, Function.iterate_succ_apply, previousN, Function.iterate_succ_apply']
    have := ih (nextOne s) hlen
    rw [previousN, nextN] at this
    rw [this]
    exact previousOne_nextOne s hne

/-- C9 (witness): the round trip at `exPlayer` with `n = 2` (both Upcoming
and Previous hold two items). -/
theorem c9_roundtrip_witness : previousN 2 (nextN 2 exPlayer) = exPlayer :=
  c9_next_previous_roundtrip 2 exPlayer (by decide) (by decide)

/-- A `maxByKey` result of `none` only happens on the empty list. -/
theorem maxByKey_none (key : RStream → Nat) (l : List RStream)
    (h : maxByKey key l = none) : l = [] := by
  cases l with
  | nil => rfl
  | cons x xs =>
    rw [maxByKey] at h
    cases hm : maxByKey key xs <;> rw [hm] at h <;> simp at h
    split at h <;> simp at h

/-- Characterisation of Rust `max_by_key`: the result splits the list into
elements before it, all of key at most its own, and elements after it, all
of key strictly below — i.e. it is the LAST maximal element. -/
theorem maxByKey_spec (key : RStream → Nat) (l : List RStream) :
    ∀ r : RStream, maxByKey key l = some r →
      ∃ l1 l2, l = l1 ++ r :: l2 ∧ (∀ x ∈ l1, key x ≤ key r) ∧
        (∀ x ∈ l2, key x < key r) := by
  induction l with
  | nil => intro r h; simp [maxByKey] at h
  | cons x xs ih =>
    intro r h
    rw [maxByKey] at h
    cases hm : maxByKey key xs with
    | none =>
      rw [hm] at h
      have hx : x = r := by simpa using h
      subst hx
      have : xs = [] := maxByKey_none key xs hm
      subst this
      exact ⟨[], [], rfl, by simp, by simp⟩
    | some m =>
      rw [hm] at h
      obtain ⟨l1, l2, heq, h1, h2⟩ := ih m hm
      have h' : (if key m < key x then some x else some m) = some r := h
      by_cases hlt : key m < key x
      · rw [if_pos hlt] at h'
        have hx : x = r := by simpa using h'
        subst hx
        refine ⟨[], xs, rfl, by simp, ?_⟩
        intro y hy
        rw [heq] at hy
        rcases List.mem_append.mp hy with hy | hy
        · exact lt_of_le_of_lt (h1 y hy) hlt
        · rcases List.mem_cons.mp hy with hy | hy
          · subst hy; exact hlt
          · exact lt_trans (h2 y hy) hlt
      · rw [if_neg hlt] at h'
        have hx : m = r := by simpa using h'
        subst hx
        refine ⟨x :: l1, l2, by rw [heq]; rfl, ?_, h2⟩
        intro y hy
        rcases List.mem_cons.mp hy with hy | hy
        · subst hy; exact Nat.le_of_not_lt hlt
        · exact h1 y hy

/-- C4 (counterexample). On `exStreams` the claim's selection (audio-only
filter, maximum bitrate, ties to the first encountered) yields `exS0`, an
audio-only stream of bitrate 100; the source's selection filters on the
MIME type `audio/mp4` as well — excluding `exS0` — and Rust `max_by_key`
resolves the remaining 50/50 tie to the LAST encountered, yielding `exS2`,
not `exS0` and not of maximal audio-only bitrate. -/
theorem c4_counterexample :
    selectStream exStreams = some exS2 ∧ selectStreamSpec exStreams = some exS0 ∧
    exS2 ≠ exS0 ∧ exS0.bitrate = 100 ∧ exS2.bitrate = 50 ∧
    exS0.includes_audio_track = true ∧ exS0.includes_video_track = false ∧
    exS0 ∈ exStreams := by
  refine ⟨by decide, by decide, by decide, by decide, by decide, by decide, by decide,
    by decide⟩

/-- C4 (amended). The worker keeps exactly the streams whose MIME type is
`audio/mp4` with an audio track and no video track, and downloads the one
with maximum bitrate among those, breaking ties between equal-bitrate
candidates in favour of the LAST encountered in the upstream order: the
selected stream passes the filter, belongs to the input, has maximal
bitrate among the filtered streams, and every filtered stream after it has
strictly smaller bitrate. -/
theorem c4_selects_last_max_audio_mp4 (streams : List RStream) (r : RStream)
    (h : selectStream streams = some r) :
    streamFilter r = true ∧ r ∈ streams ∧
    (∀ x ∈ streams, streamFilter x = true → x.bitrate ≤ r.bitrate) ∧
    ∃ l1 l2, streams.filter streamFilter = l1 ++ r :: l2 ∧
      (∀ x ∈ l1, x.bitrate ≤ r.bitrate) ∧ (∀ x ∈ l2, x.bitrate < r.bitrate) := by
  obtain ⟨l1, l2, heq, h1, h2⟩ :=
    maxByKey_spec (·.bitrate) (streams.filter streamFilter) r h
  have hrmem : r ∈ streams.filter streamFilter := by rw [heq]; simp
  have hrf : streamFilter r = true := List.of_mem_filter hrmem
  refine ⟨hrf, List.mem_of_mem_filter hrmem, ?_, l1, l2, heq, h1, h2⟩
  intro x hx hxf
  have hxmem : x ∈ streams.filter streamFilter := List.mem_filter.mpr ⟨hx, hxf⟩
  rw [heq] at hxmem
  rcases List.mem_append.mp hxmem with hy | hy
  · exact h1 x hy
  · rcases List.mem_cons.mp hy with hy | hy
    · subst hy; exact le_refl _
    · exact Nat.le_of_lt (h2 x hy)

/-- C4 (witness): the amended selection statement at `exStreams`, whose
selected stream is `exS2`. -/
theorem c4_selects_witness :
    streamFilter exS2 = true ∧ exS2 ∈ exStreams ∧
    (∀ x ∈ exStreams, streamFilter x = true → x.bitrate ≤ exS2.bitrate) ∧
    ∃ l1 l2, exStreams.filter streamFilter = l1 ++ exS2 :: l2 ∧
      (∀ x ∈ l1, x.bitrate ≤ exS2.bitrate) ∧ (∀ x ∈ l2, x.bitrate < exS2.bitrate) :=
  c4_selects_last_max_audio_mp4 exStreams exS2 (by decide)

/-- C8 (witness): the commit postcondition at `videoT` pending on an empty
cache. -/
theorem c8_commit_witness :
    fsRead (downloadPathJson videoT.video_id) (workerIter 0 true pendingTState).fs
      = some (serializeVideo videoT) ∧
    (workerIter 0 true pendingTState).inDownload
      = retainNot videoT.video_id pendingTState.inDownload ∧
    (workerIter 0 true pendingTState).sent
      = pendingTState.sent ++ [SoundAction.PlayVideo videoT] ∧
    (workerIter 0 true pendingTState).db = pendingTState.db ++ [videoT] ∧
    (workerIter 0 true pendingTState).queue = [] ∧
    (workerIter 0 true pendingTState).workers
      = pendingTState.workers.set 0 ⟨WPc.idle, false⟩ :=
  c8_commit_postcondition pendingTState 0 videoT [] rfl rfl (by decide)
